import Mathlib

/-
Verification of the live-update subsystem of the hikvision-ems frontend
(`src/frontend/src/services/eventService.jsx` and the subscribing view in
`src/frontend/src/components/Dashboard.jsx`).

The `EventService` class keeps
  * `this.eventSource`  : the single EventSource connection (or null),
  * `this.listeners`    : a plain object mapping event-type strings to arrays
                          of callback functions.
Callbacks are opaque function references; we model a callback by a natural
number standing for its reference identity (JavaScript `!==` on functions is
reference inequality, which is exactly `≠` on these identifiers).
-/

namespace EventServiceModel

/-- A decoded event envelope `{type, data}` as produced by `JSON.parse` in the
`onmessage` handler. The payload is opaque to the service, so we model it by a
natural number. -/
structure Event where
  type : String
  data : Nat
deriving DecidableEq

/-- The argument a callback is invoked with: typed listeners get the inner
payload `data.data`, wildcard listeners get the whole envelope `data`. -/
inductive Arg where
  | payload (d : Nat)
  | envelope (ty : String) (d : Nat)
deriving DecidableEq

/-- One callback invocation performed during dispatch: which callback was
called and with which argument. -/
structure Invocation where
  cb : Nat
  arg : Arg
deriving DecidableEq

/-- The `this.listeners` object: an association list from event-type strings
to arrays of callback identities. A key that is absent models a property that
is `undefined` in the JavaScript object. -/
abbrev Registry := List (String × List Nat)

/-- Property read `this.listeners[ty]`; `none` models `undefined`. -/
def getL : Registry → String → Option (List Nat)
  | [], _ => none
  | (k, v) :: r, ty => if k = ty then some v else getL r ty

/-- Property write `this.listeners[ty] = v`. -/
def setL : Registry → String → List Nat → Registry
  | [], ty, v => [(ty, v)]
  | (k, w) :: r, ty, v => if k = ty then (ty, v) :: r else (k, w) :: setL r ty v

/-- `on(eventType, callback)` from eventService.jsx: create the array if the
property is missing, then `push` the callback. The method returns `undefined`
(no subscription handle). -/
def «on» (r : Registry) (ty : String) (c : Nat) : Registry :=
  match getL r ty with
  | none => setL r ty [c]
  | some l => setL r ty (l ++ [c])

/-- `off(eventType, callback)` from eventService.jsx: if the property exists,
replace the array by `array.filter(cb => cb !== callback)`. Note that this
removes every occurrence of the callback reference, and that it replaces the
array rather than mutating it in place. -/
def off (r : Registry) (ty : String) (c : Nat) : Registry :=
  match getL r ty with
  | none => r
  | some l => setL r ty (l.filter (fun x => x != c))

/-- The body of the `onmessage` handler for a successfully parsed event, for
callbacks that return normally and do not mutate the registry:

```js
if (this.listeners[data.type]) {
  this.listeners[data.type].forEach(callback => callback(data.data));
}
if (this.listeners['*']) {
  this.listeners['*'].forEach(callback => callback(data));
}
```

The result lists the invocations in the order they are performed. -/
def dispatch (r : Registry) (e : Event) : List Invocation :=
  (match getL r e.type with
   | none => []
   | some l => l.map (fun c => ⟨c, Arg.payload e.data⟩)) ++
  (match getL r "*" with
   | none => []
   | some l => l.map (fun c => ⟨c, Arg.envelope e.type e.data⟩))

example : dispatch [("T", [0, 1]), ("*", [2])] ⟨"T", 5⟩ =
    [⟨0, Arg.payload 5⟩, ⟨1, Arg.payload 5⟩, ⟨2, Arg.envelope "T" 5⟩] := by
  decide

example : dispatch [("T", [0])] ⟨"U", 5⟩ = [] := by decide

/-! ## Dispatch with throwing callbacks

The whole `onmessage` body, `JSON.parse` included, sits inside a single
`try { ... } catch (error) { console.error(...) }`.  `Array.prototype.forEach`
does not catch exceptions thrown by its callback: the exception propagates out
of the `forEach` call, skips the rest of the handler body, and lands in the
`catch` block.  We model the throwing behaviour of each callback reference by
a function `thr : Nat → Bool`. -/

/-- Run a planned sequence of invocations in order.  A callback that throws is
still invoked (the exception is raised inside its own call), but every later
invocation in the handler body is skipped. -/
def callSeq (thr : Nat → Bool) : List Invocation → List Invocation
  | [] => []
  | i :: rest => if thr i.cb then [i] else i :: callSeq thr rest

/-- The `onmessage` handler body for a parsed event when callbacks may throw:
the planned invocations are those of `dispatch`, executed until the first
throwing callback; the `catch` swallows the exception. -/
def dispatchT (r : Registry) (thr : Nat → Bool) (e : Event) : List Invocation :=
  callSeq thr (dispatch r e)

/-! ## Connection lifecycle

`EventService` instance state beyond the listener registry: `this.eventSource`
(`none` models `null`; a connection is identified by the value of a fresh
counter), and the `setTimeout` timers scheduled by `reconnect` — the source
never stores the timer id, so it has no way to clear them; we only count the
pending ones.  `diagnostics` counts `console.error('Error parsing event:')`
calls. -/

structure ESState where
  eventSource : Option Nat
  listeners : Registry
  pending : Nat
  nextId : Nat
  diagnostics : Nat
deriving DecidableEq

/-- `connect(baseURL)`: `if (this.eventSource) { return; }` — otherwise a new
`EventSource` is created and stored.  The `onopen`/`onmessage`/`onerror`
assignments install the handlers modelled by the transitions below. -/
def connect (s : ESState) : ESState :=
  if s.eventSource.isSome then s
  else { s with eventSource := some s.nextId, nextId := s.nextId + 1 }

/-- `disconnect()`: `if (this.eventSource) { this.eventSource.close();
this.eventSource = null; }`.  Nothing else in the method body: in particular
the pending `setTimeout` timers are untouched. -/
def disconnect (s : ESState) : ESState :=
  match s.eventSource with
  | some _ => { s with eventSource := none }
  | none => s

/-- The `onerror` handler calls `reconnect(baseURL)`, which schedules one
`setTimeout(..., 3000)`; the timer id is discarded. -/
def handleError (s : ESState) : ESState :=
  { s with pending := s.pending + 1 }

/-- A pending reconnection timer fires: the `setTimeout` callback runs
`this.disconnect(); this.connect(baseURL);`. -/
def fireReconnect (s : ESState) : ESState :=
  if s.pending = 0 then s
  else connect (disconnect { s with pending := s.pending - 1 })

/-- A frame arriving on the stream, as seen by `onmessage`: either its payload
decodes (`JSON.parse` succeeds and yields an envelope) or it is malformed
(`JSON.parse` throws). -/
inductive Frame where
  | valid (e : Event)
  | malformed
deriving DecidableEq

/-- The full `onmessage` handler: parse inside the `try`; on success dispatch
to the listeners (callbacks may throw, `dispatchT`); on a parse failure the
`catch` logs a diagnostic and the handler returns.  The handler never touches
`this.eventSource` and never schedules a reconnection. -/
def handleMessage (s : ESState) (thr : Nat → Bool) (f : Frame) :
    ESState × List Invocation :=
  match f with
  | Frame.valid e => (s, dispatchT s.listeners thr e)
  | Frame.malformed => ({ s with diagnostics := s.diagnostics + 1 }, [])

/-! ## Dispatch with registry-mutating callbacks

For interleaving of `on`/`off` with an in-flight dispatch we give each
callback identity a list of registry actions it performs synchronously when
invoked (an environment `Nat → List MAct`; callbacks here return normally).

Fidelity to the JavaScript: `forEach` fixes the array object and its length
when it starts, `off` *replaces* `this.listeners[ty]` by a `filter` copy
(never mutating the iterated array), and `on` only `push`es past the saved
length — so each `forEach` walks exactly the elements present when it began.
The wildcard `forEach`, however, reads `this.listeners['*']` only after the
exact-match loop has completed, so it sees mutations made by the exact-match
callbacks. -/

inductive MAct where
  | subAct (ty : String) (c : Nat)
  | unsubAct (ty : String) (c : Nat)
deriving DecidableEq

/-- The event-type key an action targets. -/
def MAct.key : MAct → String
  | MAct.subAct ty _ => ty
  | MAct.unsubAct ty _ => ty

abbrev Env := Nat → List MAct

/-- Effect of one registry action. -/
def applyAct (r : Registry) : MAct → Registry
  | MAct.subAct ty c => «on» r ty c
  | MAct.unsubAct ty c => off r ty c

/-- Invoke the callbacks of one `forEach` snapshot in order, threading the
registry through their synchronous actions. -/
def runPhase (env : Env) (snap : List Nat) (r : Registry) : Registry :=
  snap.foldl (fun acc c => (env c).foldl applyAct acc) r

/-- The `onmessage` dispatch when callbacks mutate the registry: the
exact-match loop walks the snapshot taken at dispatch start; the wildcard loop
walks `this.listeners['*']` as it stands after the exact-match loop. -/
def dispatchM (env : Env) (r : Registry) (e : Event) :
    Registry × List Invocation :=
  let exact := (getL r e.type).getD []
  let r1 := runPhase env exact r
  let wild := (getL r1 "*").getD []
  let r2 := runPhase env wild r1
  (r2, exact.map (fun c => ⟨c, Arg.payload e.data⟩) ++
       wild.map (fun c => ⟨c, Arg.envelope e.type e.data⟩))

/-! ## The Dashboard view subscription (Dashboard.jsx)

`Dashboard` runs `useEffect(() => { ...; eventService.on('attendance_scan',
handleScan); ... }, [])`: the effect body executes exactly once, after the
first render, so the `handleScan` closure captures the `selectedDate` value of
the mount-time render and keeps seeing it for the lifetime of the
subscription, no matter how often `setSelectedDate` re-renders the component.
We therefore carry both the captured mount-time date and the current one. -/

structure DashState where
  mountDate : String
  selectedDate : String
deriving DecidableEq

/-- The date-attendance re-fetch decision of `handleScan` as written:

```js
const today = new Date().toISOString().split('T')[0];
if (selectedDate === today) {
  fetchDateAttendance(selectedDate);
}
```

where `selectedDate` is the closure-captured mount-time value.  Returns the
date queried, or `none` when no date re-fetch is issued. -/
def handleScanRefetch (st : DashState) (today : String) : Option String :=
  if st.mountDate = today then some st.mountDate else none

/-- Modelled from the spec: the same decision as `handleScanRefetch` but
reading the view's *current* `selectedDate` at delivery time, as §4.3 of the
spec requires ("re-fetch must read current parameters at delivery time, not
capture-time").  This definition follows the spec's words; the source code has
no corresponding behaviour. -/
def handleScanRefetchSpec (st : DashState) (today : String) : Option String :=
  if st.selectedDate = today then some st.selectedDate else none

/-! ## Basic lemmas about the listener registry -/

theorem getL_setL_self (r : Registry) (ty : String) (v : List Nat) :
    getL (setL r ty v) ty = some v := by
  induction r with
  | nil => simp [setL, getL]
  | cons hd tl ih =>
    obtain ⟨k, w⟩ := hd
    by_cases h : k = ty
    · simp [setL, getL, h]
    · simp [setL, getL, h, ih]

theorem getL_setL_ne (r : Registry) (ty k2 : String) (v : List Nat)
    (h : k2 ≠ ty) : getL (setL r ty v) k2 = getL r k2 := by
  induction r with
  | nil => simp [setL, getL, Ne.symm h]
  | cons hd tl ih =>
    obtain ⟨k, w⟩ := hd
    by_cases hk : k = ty
    · subst hk
      simp [setL, getL, Ne.symm h]
    · simp [setL, getL, hk, ih]

theorem setL_getL_self (r : Registry) (ty : String) (l : List Nat)
    (h : getL r ty = some l) : setL r ty l = r := by
  induction r with
  | nil => simp [getL] at h
  | cons hd tl ih =>
    obtain ⟨k, w⟩ := hd
    by_cases hk : k = ty
    · subst hk
      simp [getL] at h
      simp [setL, h]
    · simp [getL, hk] at h
      simp [setL, hk, ih h]

theorem getL_on_self (r : Registry) (ty : String) (c : Nat) :
    getL («on» r ty c) ty = some ((getL r ty).getD [] ++ [c]) := by
  unfold «on»
  cases h : getL r ty with
  | none => simp [getL_setL_self, h]
  | some l => simp [getL_setL_self, h]

theorem getL_on_ne (r : Registry) (ty k2 : String) (c : Nat) (h : k2 ≠ ty) :
    getL («on» r ty c) k2 = getL r k2 := by
  unfold «on»
  cases hg : getL r ty <;> simp [getL_setL_ne _ _ _ _ h]

theorem getL_off_self (r : Registry) (ty : String) (c : Nat) :
    (getL (off r ty c) ty).getD [] =
      ((getL r ty).getD []).filter (fun x => x != c) := by
  unfold off
  cases h : getL r ty with
  | none => simp [h]
  | some l => simp [getL_setL_self, h]

theorem getL_off_ne (r : Registry) (ty k2 : String) (c : Nat) (h : k2 ≠ ty) :
    getL (off r ty c) k2 = getL r k2 := by
  unfold off
  cases hg : getL r ty <;> simp [getL_setL_ne _ _ _ _ h]

theorem not_mem_filter_bne (l : List Nat) (c : Nat) :
    c ∉ l.filter (fun x => x != c) := by
  simp [List.mem_filter]

theorem mem_filter_bne (l : List Nat) (c c2 : Nat) (h : c2 ≠ c)
    (hm : c2 ∈ l) : c2 ∈ l.filter (fun x => x != c) := by
  refine List.mem_filter.mpr ⟨hm, ?_⟩
  simpa [bne_iff_ne] using h

theorem count_filter_bne (l : List Nat) (c c2 : Nat) (h : c2 ≠ c) :
    (l.filter (fun x => x != c)).count c2 = l.count c2 := by
  induction l with
  | nil => simp
  | cons x xs ih =>
    by_cases hx : x = c
    · subst hx
      simp [List.count_cons, Ne.symm h, ih]
    · simp only [List.filter_cons]
      simp [bne_iff_ne, hx, List.count_cons, ih]

theorem off_no_op (r : Registry) (ty : String) (c : Nat)
    (h : c ∉ (getL r ty).getD []) : off r ty c = r := by
  cases hg : getL r ty with
  | none => simp [off, hg]
  | some l =>
    have hl : c ∉ l := by
      rw [hg] at h
      simpa using h
    have hf : l.filter (fun x => x != c) = l := by
      apply List.filter_eq_self.mpr
      intro x hx
      simp only [bne_iff_ne, ne_eq, decide_eq_true_eq]
      intro hxc
      exact hl (hxc ▸ hx)
    simp only [off, hg]
    rw [hf]
    exact setL_getL_self r ty l hg

/-! ## Basic lemmas about dispatch -/

theorem dispatch_cbs (r : Registry) (e : Event) :
    (dispatch r e).map Invocation.cb =
      (getL r e.type).getD [] ++ (getL r "*").getD [] := by
  unfold dispatch
  cases h1 : getL r e.type <;> cases h2 : getL r "*" <;>
    simp [List.map_map, Function.comp_def]

theorem mem_dispatch_exact (r : Registry) (e : Event) (c : Nat)
    (h : c ∈ (getL r e.type).getD []) :
    Invocation.mk c (Arg.payload e.data) ∈ dispatch r e := by
  unfold dispatch
  cases hg : getL r e.type with
  | none => rw [hg] at h; simp at h
  | some l =>
    rw [hg] at h
    simp only [Option.getD_some] at h
    apply List.mem_append.mpr
    exact Or.inl (List.mem_map.mpr ⟨c, h, rfl⟩)

theorem callSeq_stop (thr : Nat → Bool) (pre : List Invocation)
    (i : Invocation) (post : List Invocation)
    (hpre : ∀ j ∈ pre, thr j.cb = false) (hi : thr i.cb = true) :
    callSeq thr (pre ++ i :: post) = pre ++ [i] := by
  induction pre with
  | nil => simp [callSeq, hi]
  | cons j rest ih =>
    have hj : thr j.cb = false := hpre j (List.mem_cons_self j rest)
    have hrest : ∀ k ∈ rest, thr k.cb = false := fun k hk =>
      hpre k (List.mem_cons_of_mem j hk)
    simp [callSeq, hj, ih hrest]

theorem callSeq_all_ok (thr : Nat → Bool) (l : List Invocation)
    (h : ∀ j ∈ l, thr j.cb = false) : callSeq thr l = l := by
  induction l with
  | nil => rfl
  | cons j rest ih =>
    have hj : thr j.cb = false := h j (List.mem_cons_self j rest)
    have hrest : ∀ k ∈ rest, thr k.cb = false := fun k hk =>
      h k (List.mem_cons_of_mem j hk)
    simp [callSeq, hj, ih hrest]

/-! ## Lemmas about registry-mutating callbacks -/

theorem getL_applyAct_ne (r : Registry) (a : MAct) (k : String)
    (h : MAct.key a ≠ k) : getL (applyAct r a) k = getL r k := by
  cases a with
  | subAct ty c =>
    simp only [MAct.key] at h
    exact getL_on_ne r ty k c (Ne.symm h)
  | unsubAct ty c =>
    simp only [MAct.key] at h
    exact getL_off_ne r ty k c (Ne.symm h)

theorem getL_foldl_applyAct_ne (acts : List MAct) (r : Registry) (k : String)
    (h : ∀ a ∈ acts, MAct.key a ≠ k) :
    getL (acts.foldl applyAct r) k = getL r k := by
  induction acts generalizing r with
  | nil => rfl
  | cons a rest ih =>
    have ha : MAct.key a ≠ k := h a (List.mem_cons_self a rest)
    have hrest : ∀ b ∈ rest, MAct.key b ≠ k := fun b hb =>
      h b (List.mem_cons_of_mem a hb)
    simp only [List.foldl_cons]
    rw [ih (applyAct r a) hrest, getL_applyAct_ne r a k ha]

theorem getL_runPhase_ne (env : Env) (snap : List Nat) (r : Registry)
    (k : String) (h : ∀ c ∈ snap, ∀ a ∈ env c, MAct.key a ≠ k) :
    getL (runPhase env snap r) k = getL r k := by
  induction snap generalizing r with
  | nil => rfl
  | cons c rest ih =>
    have hc : ∀ a ∈ env c, MAct.key a ≠ k := h c (List.mem_cons_self c rest)
    have hrest : ∀ c2 ∈ rest, ∀ a ∈ env c2, MAct.key a ≠ k := fun c2 hc2 =>
      h c2 (List.mem_cons_of_mem c hc2)
    simp only [runPhase, List.foldl_cons]
    rw [show List.foldl (fun acc c => (env c).foldl applyAct acc)
        ((env c).foldl applyAct r) rest =
        runPhase env rest ((env c).foldl applyAct r) from rfl]
    rw [ih ((env c).foldl applyAct r) hrest,
      getL_foldl_applyAct_ne (env c) r k hc]

/-! ## Claim theorems -/

/-- C2: for every registry state and every event, dispatch invokes exactly the
subscribers registered for the event's exact type, in registration order,
followed by every wildcard subscriber in registration order, and no other
subscriber.  Hence a subscriber registered only for type T is never invoked
for an event of type U ≠ T, a wildcard subscriber is invoked for every event,
and an event whose type has no exact-match subscribers is still delivered to
all wildcard subscribers. -/
theorem claim_dispatch_order (r : Registry) (e : Event) :
    (dispatch r e).map Invocation.cb =
      (getL r e.type).getD [] ++ (getL r "*").getD [] :=
  dispatch_cbs r e

/-- C10: for every successfully decoded event, an exact-match subscriber is
invoked with only the inner payload (the envelope's `data` field, which does
not carry the type), while a wildcard subscriber is invoked with the entire
decoded envelope including its type field; the two argument shapes are
distinct. -/
theorem claim_dispatch_args (r : Registry) (e : Event) :
    dispatch r e =
      ((getL r e.type).getD []).map (fun c => Invocation.mk c (Arg.payload e.data)) ++
      ((getL r "*").getD []).map
        (fun c => Invocation.mk c (Arg.envelope e.type e.data)) ∧
    Arg.payload e.data ≠ Arg.envelope e.type e.data := by
  constructor
  · unfold dispatch
    cases h1 : getL r e.type <;> cases h2 : getL r "*" <;> simp
  · exact fun h => Arg.noConfusion h

theorem claim_dispatch_args_wit :
    dispatch [("T", [1]), ("*", [2])] ⟨"T", 8⟩ =
      ((getL ([("T", [1]), ("*", [2])] : Registry) "T").getD []).map
        (fun c => Invocation.mk c (Arg.payload 8)) ++
      ((getL ([("T", [1]), ("*", [2])] : Registry) "*").getD []).map
        (fun c => Invocation.mk c (Arg.envelope "T" 8)) ∧
    Arg.payload 8 ≠ Arg.envelope "T" 8 :=
  claim_dispatch_args [("T", [1]), ("*", [2])] ⟨"T", 8⟩

/-- C4: a call to `connect()` while a connection object already exists (the
state is Connecting or Open) returns without any side effect: the whole
service state — connection, listener registry, timers, counters — is
unchanged, and no second connection is opened. -/
theorem claim_connect_no_op (s : ESState) (h : s.eventSource.isSome = true) :
    connect s = s := by
  unfold connect
  simp [h]

theorem claim_connect_no_op_wit :
    (ESState.mk (some 5) [("T", [1])] 0 6 0).eventSource.isSome = true ∧
    connect (ESState.mk (some 5) [("T", [1])] 0 6 0) =
      ESState.mk (some 5) [("T", [1])] 0 6 0 :=
  ⟨by decide, claim_connect_no_op _ (by decide)⟩

/-- C6: after `off(ty, c)`, a later event of type ty never invokes the removed
callback (provided the same callback reference is not also registered as a
wildcard subscriber, which would be a separate registration), every other
still-registered subscriber for ty is still invoked with the payload, and an
`off` for a callback that is not registered is a no-op leaving the registry
unchanged. -/
theorem claim_off_removes (r : Registry) (ty : String) (c c2 : Nat) (e : Event)
    (r2 : Registry) (ty2 : String) (c3 : Nat)
    (hty : e.type = ty)
    (hw : c ∉ (getL (off r ty c) "*").getD [])
    (hc2 : c2 ∈ (getL r ty).getD [])
    (hne : c2 ≠ c)
    (h3 : c3 ∉ (getL r2 ty2).getD []) :
    c ∉ (dispatch (off r ty c) e).map Invocation.cb ∧
    Invocation.mk c2 (Arg.payload e.data) ∈ dispatch (off r ty c) e ∧
    off r2 ty2 c3 = r2 := by
  refine ⟨?_, ?_, off_no_op r2 ty2 c3 h3⟩
  · rw [dispatch_cbs]
    intro hmem
    rcases List.mem_append.mp hmem with hx | hx
    · rw [hty, getL_off_self] at hx
      exact not_mem_filter_bne _ c hx
    · exact hw hx
  · apply mem_dispatch_exact
    rw [hty, getL_off_self]
    exact mem_filter_bne _ c c2 hne hc2

theorem claim_off_removes_wit :
    1 ∉ (dispatch (off [("T", [1, 2]), ("*", [3])] "T" 1)
      ⟨"T", 9⟩).map Invocation.cb ∧
    Invocation.mk 2 (Arg.payload 9) ∈
      dispatch (off [("T", [1, 2]), ("*", [3])] "T" 1) ⟨"T", 9⟩ ∧
    off [("U", [4])] "U" 5 = [("U", [4])] :=
  claim_off_removes [("T", [1, 2]), ("*", [3])] "T" 1 2 ⟨"T", 9⟩
    [("U", [4])] "U" 5 rfl (by decide) (by decide) (by decide) (by decide)

/-- C7: a frame whose payload fails to decode is discarded at the handler
boundary: no subscriber (exact-match or wildcard) is invoked, a diagnostic is
recorded, the connection object is untouched and no reconnection is scheduled
— regardless of the service state and of which callbacks would throw. -/
theorem claim_malformed_swallowed (s : ESState) (thr : Nat → Bool) :
    (handleMessage s thr Frame.malformed).2 = [] ∧
    (handleMessage s thr Frame.malformed).1.eventSource = s.eventSource ∧
    (handleMessage s thr Frame.malformed).1.pending = s.pending ∧
    (handleMessage s thr Frame.malformed).1.listeners = s.listeners ∧
    (handleMessage s thr Frame.malformed).1.diagnostics = s.diagnostics + 1 :=
  ⟨rfl, rfl, rfl, rfl, rfl⟩

/-- C1 counterexample: the claim says that when one subscriber callback throws
during dispatch, every subsequent matching subscriber is still invoked.  In
the code the single try/catch wraps the whole handler body, so when callback 0
(registered first for "T") throws, callback 1 (also registered for "T") and
wildcard callback 2 receive nothing, although both match the event — as the
last conjunct shows, callback 1 would have been invoked had nothing thrown. -/
theorem claim_throw_cex :
    dispatchT [("T", [0, 1]), ("*", [2])] (fun n => n == 0) ⟨"T", 4⟩ =
      [⟨0, Arg.payload 4⟩] ∧
    Invocation.mk 1 (Arg.payload 4) ∉
      dispatchT [("T", [0, 1]), ("*", [2])] (fun n => n == 0) ⟨"T", 4⟩ ∧
    Invocation.mk 2 (Arg.envelope "T" 4) ∉
      dispatchT [("T", [0, 1]), ("*", [2])] (fun n => n == 0) ⟨"T", 4⟩ ∧
    Invocation.mk 1 (Arg.payload 4) ∈
      dispatch [("T", [0, 1]), ("*", [2])] ⟨"T", 4⟩ := by
  decide

/-- C1 amended: when a subscriber callback throws during dispatch, the
subscribers delivered before it are unaffected and the throwing callback is
itself invoked, but delivery stops there: no subsequent matching subscriber
(remaining exact-match or wildcard) is invoked for that event.  The exception
is swallowed by the handler's try/catch, so the connection state is unchanged
and the stream is not destabilized. -/
theorem claim_throw_amended (r : Registry) (thr : Nat → Bool) (e : Event)
    (s : ESState) (pre : List Invocation) (i : Invocation)
    (post : List Invocation)
    (hsplit : dispatch r e = pre ++ i :: post)
    (hpre : ∀ j ∈ pre, thr j.cb = false)
    (hi : thr i.cb = true) :
    dispatchT r thr e = pre ++ [i] ∧
    (handleMessage s thr (Frame.valid e)).1 = s := by
  refine ⟨?_, rfl⟩
  unfold dispatchT
  rw [hsplit]
  exact callSeq_stop thr pre i post hpre hi

theorem claim_throw_amended_wit :
    dispatchT [("T", [0, 1]), ("*", [2])] (fun n => n == 1) ⟨"T", 4⟩ =
      [⟨0, Arg.payload 4⟩] ++ [⟨1, Arg.payload 4⟩] ∧
    (handleMessage (ESState.mk (some 0) [("T", [0, 1]), ("*", [2])] 0 1 0)
      (fun n => n == 1) (Frame.valid ⟨"T", 4⟩)).1 =
      ESState.mk (some 0) [("T", [0, 1]), ("*", [2])] 0 1 0 :=
  claim_throw_amended [("T", [0, 1]), ("*", [2])] (fun n => n == 1) ⟨"T", 4⟩
    (ESState.mk (some 0) [("T", [0, 1]), ("*", [2])] 0 1 0)
    [⟨0, Arg.payload 4⟩] ⟨1, Arg.payload 4⟩ [⟨2, Arg.envelope "T" 4⟩]
    (by decide) (by decide) (by decide)

/-- C3 counterexample: the claim says `disconnect()` cancels any pending
reconnection timer, so that after a transport failure has scheduled a
reconnection no later reconnection fires and no new connection is opened.  In
the code `reconnect` never stores the `setTimeout` id and `disconnect` only
closes the EventSource, so: connect, then a transport error (schedules the
timer), then disconnect — the timer is still pending — and when it fires it
opens a fresh connection. -/
theorem claim_disconnect_cex :
    (disconnect (handleError (connect (ESState.mk none [] 0 0 0)))).pending
      = 1 ∧
    (fireReconnect (disconnect (handleError
      (connect (ESState.mk none [] 0 0 0))))).eventSource = some 1 := by
  decide

/-- C3 amended: `disconnect()` is idempotent and safe in every state: it
closes any active connection, transitions the service to Disconnected
(`eventSource` becomes null) and leaves the listener registry intact — but it
does not cancel pending reconnection timers: the pending count is unchanged,
and a pending timer that later fires opens a new connection. -/
theorem claim_disconnect_amended (s : ESState) (h : 0 < s.pending) :
    (disconnect s).eventSource = none ∧
    disconnect (disconnect s) = disconnect s ∧
    (disconnect s).pending = s.pending ∧
    (disconnect s).listeners = s.listeners ∧
    (fireReconnect (disconnect s)).eventSource = some (disconnect s).nextId := by
  have hfields : (disconnect s).eventSource = none ∧
      (disconnect s).pending = s.pending ∧
      (disconnect s).listeners = s.listeners := by
    cases hs : s.eventSource <;> simp [disconnect, hs]
  obtain ⟨h1, h2, h3⟩ := hfields
  have hid : ∀ t : ESState, t.eventSource = none → disconnect t = t := by
    intro t ht
    simp [disconnect, ht]
  refine ⟨h1, hid _ h1, h2, h3, ?_⟩
  have hp : ¬ (disconnect s).pending = 0 := by omega
  unfold fireReconnect
  rw [if_neg hp]
  have hte : ({ disconnect s with pending := (disconnect s).pending - 1 }
      : ESState).eventSource = none := h1
  rw [hid _ hte]
  unfold connect
  rw [hte]
  simp

theorem claim_disconnect_amended_wit :
    (disconnect (ESState.mk (some 3) [("T", [1])] 2 4 0)).eventSource = none ∧
    disconnect (disconnect (ESState.mk (some 3) [("T", [1])] 2 4 0)) =
      disconnect (ESState.mk (some 3) [("T", [1])] 2 4 0) ∧
    (disconnect (ESState.mk (some 3) [("T", [1])] 2 4 0)).pending =
      (ESState.mk (some 3) [("T", [1])] 2 4 0).pending ∧
    (disconnect (ESState.mk (some 3) [("T", [1])] 2 4 0)).listeners =
      (ESState.mk (some 3) [("T", [1])] 2 4 0).listeners ∧
    (fireReconnect (disconnect (ESState.mk (some 3) [("T", [1])] 2 4 0))).eventSource =
      some (disconnect (ESState.mk (some 3) [("T", [1])] 2 4 0)).nextId :=
  claim_disconnect_amended (ESState.mk (some 3) [("T", [1])] 2 4 0) (by decide)

/-- C5 counterexample: the claim says subscribing the same type twice — even
with the identical callback — yields independently removable registrations,
one `unsubscribe` removing exactly one of them and leaving the other active.
In the code `on` returns no handle at all and `off` filters by callback
reference, so after subscribing callback 7 to "T" twice, a single
`off("T", 7)` removes both registrations: none is left, not one. -/
theorem claim_handle_cex :
    getL (off («on» («on» ([] : Registry) "T" 7) "T" 7) "T" 7) "T" =
      some [] ∧
    ((getL (off («on» («on» ([] : Registry) "T" 7) "T" 7) "T" 7) "T").getD
      []).count 7 ≠ 1 := by
  decide

/-- C5 amended: `on` registers a (type, callback) pair and returns no handle;
removal is keyed by the pair itself: `off(ty, c)` removes every registration
of callback reference c under ty (so registrations of the identical callback
are removed together, while a registration of a different callback reference
— e.g. a structurally-equal but distinct closure — is untouched), and `on`
appends the callback to the end of the type's registration list. -/
theorem claim_off_by_reference (r : Registry) (ty : String) (c c2 : Nat)
    (h : c2 ≠ c) :
    ((getL (off r ty c) ty).getD []).count c = 0 ∧
    ((getL (off r ty c) ty).getD []).count c2 =
      ((getL r ty).getD []).count c2 ∧
    getL («on» r ty c) ty = some ((getL r ty).getD [] ++ [c]) := by
  refine ⟨?_, ?_, getL_on_self r ty c⟩
  · rw [getL_off_self]
    exact List.count_eq_zero.mpr (not_mem_filter_bne _ c)
  · rw [getL_off_self]
    exact count_filter_bne _ c c2 h

theorem claim_off_by_reference_wit :
    ((getL (off [("T", [1, 2, 1])] "T" 1) "T").getD []).count 1 = 0 ∧
    ((getL (off [("T", [1, 2, 1])] "T" 1) "T").getD []).count 2 =
      ((getL ([("T", [1, 2, 1])] : Registry) "T").getD []).count 2 ∧
    getL («on» [("T", [1, 2, 1])] "T" 1) "T" =
      some ((getL ([("T", [1, 2, 1])] : Registry) "T").getD [] ++ [1]) :=
  claim_off_by_reference [("T", [1, 2, 1])] "T" 1 2 (by decide)

/-- C9 counterexample: the claim says the set of callbacks invoked for an
event is exactly the set registered when its dispatch began.  In the code the
wildcard loop reads `this.listeners['*']` only after the exact-match loop has
finished, so when exact-match callback 0 synchronously subscribes callback 7
as a wildcard, 7 is invoked for the *current* event although it was not
registered when dispatch began (the third conjunct: 7 is not among the
callbacks registered at dispatch start). -/
theorem claim_snapshot_cex :
    ((dispatchM (fun n => if n = 0 then [MAct.subAct "*" 7] else [])
        [("T", [0])] ⟨"T", 3⟩).2).map Invocation.cb = [0, 7] ∧
    (getL ([("T", [0])] : Registry) "T").getD [] ++
      (getL ([("T", [0])] : Registry) "*").getD [] = [0] ∧
    (7 : Nat) ∉ ([0] : List Nat) := by
  decide

/-- C9 amended: the exact-match loop iterates a snapshot taken at dispatch
start, so synchronous subscribes/unsubscribes performed by callbacks never
corrupt that iteration and exactly the exact-match subscribers registered at
dispatch start are invoked, in order; the wildcard loop however reads the
wildcard list only after the exact-match loop finished, so whenever no action
performed by an exact-match callback targets the wildcard key, the callbacks
invoked for the event are exactly those registered when dispatch began. -/
theorem claim_snapshot_amended (env : Env) (r : Registry) (e : Event)
    (h : ∀ c ∈ (getL r e.type).getD [], ∀ a ∈ env c, MAct.key a ≠ "*") :
    ((dispatchM env r e).2).map Invocation.cb =
      (getL r e.type).getD [] ++ (getL r "*").getD [] := by
  have hw : getL (runPhase env ((getL r e.type).getD []) r) "*" = getL r "*" :=
    getL_runPhase_ne env _ r "*" h
  unfold dispatchM
  simp only [hw, List.map_append, List.map_map, Function.comp_def]
  simp

theorem claim_snapshot_amended_wit :
    ((dispatchM (fun n => if n = 0 then [MAct.subAct "T2" 9] else [])
        [("T", [0]), ("*", [5])] ⟨"T", 2⟩).2).map Invocation.cb =
      (getL ([("T", [0]), ("*", [5])] : Registry) "T").getD [] ++
      (getL ([("T", [0]), ("*", [5])] : Registry) "*").getD [] :=
  claim_snapshot_amended (fun n => if n = 0 then [MAct.subAct "T2" 9] else [])
    [("T", [0]), ("*", [5])] ⟨"T", 2⟩ (by decide)

/-- C8: the `handleScan` closure is created once, inside the
`useEffect(..., [])` that runs only at mount, so its `selectedDate` is the
mount-time value.  With the Dashboard mounted on 2026-10-11 and the user
having since selected 2026-10-10, a delivered scan event makes the code
compare the *captured* date with today and re-fetch attendance for
2026-10-11, while the spec-modelled behaviour reads the current date
2026-10-10, which differs from today, and issues no date re-fetch. -/
theorem claim_stale_date_bug :
    handleScanRefetch ⟨"2026-10-11", "2026-10-10"⟩ "2026-10-11" =
      some "2026-10-11" ∧
    handleScanRefetchSpec ⟨"2026-10-11", "2026-10-10"⟩ "2026-10-11" = none ∧
    handleScanRefetch ⟨"2026-10-11", "2026-10-10"⟩ "2026-10-11" ≠
      handleScanRefetchSpec ⟨"2026-10-11", "2026-10-10"⟩ "2026-10-11" := by
  decide

end EventServiceModel
